import Mathlib

/-!
A verification development for `https` (main.go).

`https` terminates TLS on a local listener with a self-signed certificate and
forwards every request, in plaintext, to an upstream address.

The Go program is embedded shallowly:

* Go strings are Lean `String`s (the colon and the slash are one byte each in
  UTF-8, so a search for them by byte and by character agree), byte slices are
  `List Nat`;
* Go maps are association lists read through `lookup`;
* the filesystem maps each place, named by one path, to a file, a directory
  or a symbolic link with the path it leads to; `os.Stat`, `os.Create` and
  `os.OpenFile` follow links, and permission bits are those of a POSIX
  filesystem;
* the process state (`World`) is the filesystem together with the ordered
  record of every call that leaves the process (operating system, clock,
  random source, network, standard streams);
* what the standard library and the operating system decide on their own
  (parsing of addresses, random numbers, I/O faults) is a parameter, `Lib`;
* `os.Exit` and `log.Fatal*` end the run: every step returns a `Res`, which is
  either a value with the new world or a process exit with its status.
-/

set_option autoImplicit false

namespace Https

/-! ## Constants of main.go -/

/-- The constant `Version` (main.go:22). -/
def Version : String := "0.0.0"

/-- The constant `DefaultUpstream` (main.go:23). -/
def DefaultUpstream : String := "8000"

/-! ## package strings -/

/-- Go `strings.Contains(s, substr)`: `substr` occurs in `s` at some offset. -/
def stringsContains (s substr : String) : Bool :=
  s.toList.tails.any (fun t => substr.toList.isPrefixOf t)

/-! ## net/http: headers, URLs, requests -/

/-- Bytes allowed in a header field name (the `token` characters of HTTP). -/
def validHeaderFieldByte (c : Char) : Bool :=
  c.isAlphanum || "!#$%&'*+-.^_`|~".toList.contains c

/-- The letter case pass of `textproto.CanonicalMIMEHeaderKey`: upper case for
the first letter and for a letter after a hyphen, lower case elsewhere. -/
def canonicalCase : Bool → List Char → List Char
  | _, [] => []
  | upper, c :: cs =>
    let c1 := if upper then c.toUpper else c.toLower
    c1 :: canonicalCase (c1 == '-') cs

/-- Go `textproto.CanonicalMIMEHeaderKey`: a key holding a byte that is not
valid in a field name is returned as it is. -/
def canonicalMIMEHeaderKey (s : String) : String :=
  if s.toList.all validHeaderFieldByte then String.mk (canonicalCase true s.toList) else s

/-- Map assignment `m[k] = v` on an association list. -/
def assign {β : Type} (m : List (String × β)) (k : String) (v : β) : List (String × β) :=
  (k, v) :: m.filter (fun kv => kv.1 != k)

/-- Go `http.Header`, a `map[string][]string` (never nil on a request the
server hands to a handler). -/
abbrev Header := List (String × List String)

/-- Map read `h[key]`; `none` when the key is absent. -/
def Header.lookup (h : Header) (key : String) : Option (List String) :=
  List.lookup key h

/-- Go `Header.Set(key, value)`: `h[CanonicalMIMEHeaderKey(key)] = []string{value}`. -/
def Header.Set (h : Header) (key value : String) : Header :=
  assign h (canonicalMIMEHeaderKey key) [value]

/-- Go `url.URL`. -/
structure URL where
  Scheme : String
  Opaque : String
  User : Option (String × Option String)
  Host : String
  Path : String
  RawPath : String
  ForceQuery : Bool
  RawQuery : String
  Fragment : String
  deriving DecidableEq, Repr

/-- Go `http.Request`, the fields a handler can read. The body is the byte
stream still to be read. -/
structure Request where
  Method : String
  URL : URL
  Proto : String
  Header : Header
  Body : List Nat
  ContentLength : Int
  TransferEncoding : List String
  Host : String
  RemoteAddr : String
  RequestURI : String
  deriving DecidableEq, Repr

/-- Go `httputil.ReverseProxy` as main.go builds it: only `Director` is set. -/
structure ReverseProxy where
  Director : Request → Request

/-- The closure `director` of `reverseProxy` (main.go:131-135). -/
def director (host : String) (req : Request) : Request :=
  let req := { req with URL := { req.URL with Scheme := "http" } }
  let req := { req with URL := { req.URL with Host := host } }
  { req with Header := req.Header.Set "X-Forwarded-Proto" "https" }

/-- The function `reverseProxy` (main.go:130-137). -/
def reverseProxy (host : String) : ReverseProxy :=
  { Director := director host }

/-! ## The upstream address (main.go:147-149 and 156-159) -/

/-- The lines `if len(args) == 0 { args = append(args, DefaultUpstream) }`. -/
def defaultArgs (args : List String) : List String :=
  if args.length = 0 then args ++ [DefaultUpstream] else args

/-- The lines `upstream := args[0]; if !strings.Contains(upstream, ":") {...}`,
for the first positional argument `arg0`. -/
def resolveUpstream (arg0 : String) : String :=
  let upstream := arg0
  if !stringsContains upstream ":" then "127.0.0.1:" ++ upstream else upstream

/-! ## package time -/

/-- Two's complement wrap of a 64-bit signed integer. -/
def wrapInt64 (x : Int) : Int := (x + 2 ^ 63) % 2 ^ 64 - 2 ^ 63

/-- Go `time.Duration`: an `int64` count of nanoseconds. -/
abbrev Duration := Int

/-- Go `time.Nanosecond`. -/
def Nanosecond : Duration := 1
/-- Go `time.Microsecond`. -/
def Microsecond : Duration := wrapInt64 (1000 * Nanosecond)
/-- Go `time.Millisecond`. -/
def Millisecond : Duration := wrapInt64 (1000 * Microsecond)
/-- Go `time.Second`. -/
def Second : Duration := wrapInt64 (1000 * Millisecond)
/-- Go `time.Minute`. -/
def Minute : Duration := wrapInt64 (60 * Second)
/-- Go `time.Hour`. -/
def Hour : Duration := wrapInt64 (60 * Minute)

/-- Go `time.Time`, an instant with nanosecond precision, counted in
nanoseconds from a fixed origin. The range of `time.Time` (hundreds of
billions of years) is far beyond any clock reading, so the count is unbounded. -/
structure Time where
  ns : Int
  deriving DecidableEq, Repr

/-- Go `Time.Add(d)`. -/
def Time.Add (t : Time) (d : Duration) : Time := { ns := t.ns + d }

/-! ## crypto/rsa, crypto/x509, net -/

/-- Go `rsa.PublicKey`. -/
structure PublicKey where
  N : Nat
  E : Nat
  deriving DecidableEq, Repr

/-- Go `rsa.PrivateKey`. -/
structure PrivateKey where
  PublicKey : PublicKey
  D : Nat
  Primes : List Nat
  deriving DecidableEq, Repr

/-- Go `net.IP`, a byte slice. -/
abbrev IP := List Nat

/-- Go `net.TCPAddr`. -/
structure TCPAddr where
  IP : IP
  Port : Int
  Zone : String
  deriving DecidableEq, Repr

/-- Go `x509.KeyUsageDigitalSignature` (`1 << 0`). -/
def KeyUsageDigitalSignature : Nat := 1
/-- Go `x509.KeyUsageKeyEncipherment` (`1 << 2`). -/
def KeyUsageKeyEncipherment : Nat := 4
/-- Go `x509.KeyUsageCertSign` (`1 << 5`). -/
def KeyUsageCertSign : Nat := 32
/-- Go `x509.ExtKeyUsageServerAuth`. -/
def ExtKeyUsageServerAuth : Nat := 1

/-- Go `pkix.Name`, the field main.go sets. -/
structure Name where
  Organization : List String
  deriving DecidableEq, Repr

/-- Go `x509.Certificate` as a template: the fields main.go sets; a field left
out of the composite literal has its zero value. -/
structure Certificate where
  IsCA : Bool
  SerialNumber : Nat
  Subject : Name
  NotBefore : Time
  NotAfter : Time
  KeyUsage : Nat
  ExtKeyUsage : List Nat
  BasicConstraintsValid : Bool
  IPAddresses : List IP
  DNSNames : List String
  deriving DecidableEq, Repr

/-! ## The process state -/

/-- What a path names: a regular file with permission bits and contents, a
directory with permission bits, or a symbolic link with the path it leads to. -/
inductive Node where
  | file (perm : Nat) (data : List Nat)
  | dir (perm : Nat)
  | symlink (target : String)
  deriving DecidableEq, Repr

/-- The filesystem as the process sees it: the node each path names. Every
place has one path for its name, and the target of a link is such a path. -/
abbrev FS := List (String × Node)

/-- The most symbolic links the system follows on the way to one file. -/
def maxSymlinks : Nat := 40

/-- Every call that leaves the process, in order, with its arguments. -/
inductive Event where
  | stat (path : String)
  | mkdirAll (path : String) (perm : Nat)
  | create (path : String)
  | openFile (path : String) (perm : Nat)
  | write (path : String) (data : List Nat)
  | close (path : String)
  | generateKey (bits : Nat)
  | now
  | randInt (limit : Nat)
  | createCertificate (template : Certificate) (parent : Certificate) (pub : PublicKey)
      (priv : PrivateKey)
  | resolveTCPAddr (network : String) (address : String)
  | listenAndServeTLS (addr : String) (certFile : String) (keyFile : String)
      (handler : ReverseProxy)
  | log (line : String)
  | stderr (text : String)
  | stdout (text : String)

/-- The state of the process and of the machine around it. -/
structure World where
  fs : FS
  umask : Nat
  trace : List Event

/-- Record one more call. -/
def World.emit (w : World) (e : Event) : World :=
  { w with trace := w.trace ++ [e] }

/-- The result of a step that may end the process. -/
inductive Res (α : Type) where
  | ok (a : α) (w : World)
  | exit (code : Nat) (w : World)

/-- How a run of `main` ends: the process exits, or it stays in the accept
loop of the TLS server. -/
inductive Outcome where
  | exited (code : Nat) (w : World)
  | serving (w : World)

/-- What the standard library and the operating system decide on their own in
one run. -/
structure Lib where
  /-- Go `rsa.GenerateKey(rand.Reader, bits)`. -/
  generateKey : Nat → Except String PrivateKey
  /-- Go `time.Now()`. -/
  now : Time
  /-- Go `rand.Int(rand.Reader, max)`. -/
  randInt : Nat → Except String Nat
  /-- Go `net.ParseIP`. -/
  parseIP : String → Option IP
  /-- Go `x509.CreateCertificate(rand.Reader, template, parent, pub, priv)`. -/
  createCertificate : Certificate → Certificate → PublicKey → PrivateKey → Except String (List Nat)
  /-- Go `x509.MarshalPKCS1PrivateKey`. -/
  marshalPKCS1PrivateKey : PrivateKey → List Nat
  /-- The bytes `pem.Encode` writes for a block of the given type and bytes. -/
  pemEncode : String → List Nat → List Nat
  /-- A failure of `os.MkdirAll` on the path, decided by the system. -/
  mkdirAllFault : String → Option String
  /-- A failure of opening the path for writing, decided by the system. -/
  openFault : String → Option String
  /-- A failure of writing to the path: the number of bytes that got through
  before the error. -/
  writeFault : String → Option Nat
  /-- Go `net.ResolveTCPAddr(network, address)`. -/
  resolveTCPAddr : String → String → Except String TCPAddr
  /-- The error `http.ListenAndServeTLS` returns, `none` while it keeps serving. -/
  listenAndServeTLS : String → String → String → Option String

/-! ## The filesystem calls of package os -/

/-- Go `a &^ b`: the bits of `a` that are not in `b`. -/
def andNot (a b : Nat) : Nat := a ^^^ (a &&& b)

/-- The place a path leads to once its symbolic links are followed, at most
`fuel` of them: a place with a file, with a directory or with nothing; `none`
when the links do not end within the bound (`ELOOP`). -/
def FS.follow (fs : FS) : Nat → String → Option String
  | 0, path =>
    match List.lookup path fs with
    | some (.symlink _) => none
    | _ => some path
  | fuel + 1, path =>
    match List.lookup path fs with
    | some (.symlink target) => FS.follow fs fuel target
    | _ => some path

/-- Go `os.Stat(path)`, which follows symbolic links: the file or directory
the path leads to, `none` for an error. -/
def FS.stat (fs : FS) (path : String) : Option Node :=
  match fs.follow maxSymlinks path with
  | some place => List.lookup place fs
  | none => none

/-- Go `os.Stat(path)` succeeds. -/
def FS.present (fs : FS) (path : String) : Bool :=
  (fs.stat path).isSome

/-- Go `os.MkdirAll(path, perm)`: nothing to do when the path leads to a
directory, an error when it leads to a file or is a link that leads nowhere
(`mkdir` does not follow it), a new directory with `perm` less the umask
otherwise. The parents made on the way are not kept in the state, no step of
the program looks at them, and a failure on a parent is one of the faults of
`Lib`. The first component is the error, `none` for `nil`. -/
def mkdirAll (lib : Lib) (path : String) (perm : Nat) (w : World) : Option String × World :=
  let w := w.emit (.mkdirAll path perm)
  match lib.mkdirAllFault path with
  | some err => (some err, w)
  | none =>
    match w.fs.stat path with
    | some (.dir _) => (none, w)
    | some _ => (some ("mkdir " ++ path ++ ": not a directory"), w)
    | none =>
      match List.lookup path w.fs with
      | some _ => (some ("mkdir " ++ path ++ ": file exists"), w)
      | none => (none, { w with fs := assign w.fs path (.dir (andNot perm w.umask)) })

/-- The effect of `open(2)` with `O_CREAT|O_TRUNC` and write access, which
follows symbolic links: where the path leads, an existing file is emptied and
keeps its permission bits, a missing one is made with `perm` less the umask, a
directory cannot be opened for writing. The first component is the error,
`none` for `nil`. -/
def openTrunc (lib : Lib) (path : String) (perm : Nat) (w : World) : Option String × World :=
  match lib.openFault path with
  | some err => (some err, w)
  | none =>
    match w.fs.follow maxSymlinks path with
    | none => (some ("open " ++ path ++ ": too many levels of symbolic links"), w)
    | some place =>
      match List.lookup place w.fs with
      | some (.symlink _) =>
        (some ("open " ++ path ++ ": too many levels of symbolic links"), w)
      | some (.dir _) => (some ("open " ++ path ++ ": is a directory"), w)
      | some (.file old _) => (none, { w with fs := assign w.fs place (.file old []) })
      | none => (none, { w with fs := assign w.fs place (.file (andNot perm w.umask) []) })

/-- Go `os.Create(name)`, that is `OpenFile(name, O_RDWR|O_CREATE|O_TRUNC, 0666)`. -/
def osCreate (lib : Lib) (name : String) (w : World) : Option String × World :=
  openTrunc lib name 0o666 (w.emit (.create name))

/-- Go `os.OpenFile(name, os.O_WRONLY|os.O_CREATE|os.O_TRUNC, perm)`. -/
def osOpenFile (lib : Lib) (name : String) (perm : Nat) (w : World) : Option String × World :=
  openTrunc lib name perm (w.emit (.openFile name perm))

/-- Writing `data` to the file just opened at `path`, the file the path leads
to; on a fault only the first bytes arrive. The returned flag is `err == nil`. -/
def writeFile (lib : Lib) (path : String) (data : List Nat) (w : World) : Bool × World :=
  let w := w.emit (.write path data)
  let arrived := match lib.writeFault path with
    | none => data
    | some n => data.take n
  let fs := match w.fs.follow maxSymlinks path with
    | some place =>
      match List.lookup place w.fs with
      | some (.file perm _) => assign w.fs place (.file perm arrived)
      | _ => w.fs
    | none => w.fs
  ((lib.writeFault path).isNone, { w with fs := fs })

/-- Go `pem.Encode(out, &pem.Block{Type: type, Bytes: bytes})` on the file
open at `path`. The returned flag is `err == nil`. -/
def pemEncode (lib : Lib) (path : String) (type : String) (bytes : List Nat) (w : World) :
    Bool × World :=
  writeFile lib path (lib.pemEncode type bytes) w

/-- Go `f.Close()` on the file open at `path`. -/
def closeFile (path : String) (w : World) : World :=
  w.emit (.close path)

/-- Go `log.Println(line)`. -/
def logPrintln (line : String) (w : World) : World :=
  w.emit (.log (line ++ "\n"))

/-- Go `log.Fatalf`: the message goes to the log, then `os.Exit(1)`. -/
def logFatalf {α : Type} (msg : String) (w : World) : Res α :=
  .exit 1 (w.emit (.log (msg ++ "\n")))

/-! ## main.go -/

/-- The function `exists` (main.go:50-53). -/
def pathExists (path : String) (w : World) : Bool × World :=
  (w.fs.present path, w.emit (.stat path))

/-- The condition `exists(certPath) && exists(keyPath)`: the second path is
looked at only when the first is there. -/
def bothExist (certPath keyPath : String) (w : World) : Bool × World :=
  match pathExists certPath w with
  | (true, w) => pathExists keyPath w
  | (false, w) => (false, w)

/-- The directory `dir` of `generateCert` (main.go:58). -/
def certDir (host : String) : String := "/tmp/https-certs/" ++ host ++ "/"

/-- The path `certPath` of `generateCert` (main.go:59). -/
def certPathOf (host : String) : String := certDir host ++ "cert.pem"

/-- The path `keyPath` of `generateCert` (main.go:60). -/
def keyPathOf (host : String) : String := certDir host ++ "key.pem"

/-- The validity `365 * 24 * time.Hour` (main.go:74), an `int64`. -/
def certLifetime : Duration := wrapInt64 (365 * 24 * Hour)

/-- The composite literal `x509.Certificate{...}` (main.go:82-95). -/
def templateLiteral (serialNumber : Nat) (notBefore notAfter : Time) : Certificate :=
  { IsCA := true
    SerialNumber := serialNumber
    Subject := { Organization := ["Acme Co"] }
    NotBefore := notBefore
    NotAfter := notAfter
    KeyUsage := KeyUsageKeyEncipherment ||| KeyUsageDigitalSignature ||| KeyUsageCertSign
    ExtKeyUsage := [ExtKeyUsageServerAuth]
    BasicConstraintsValid := true
    IPAddresses := []
    DNSNames := [] }

/-- The subject alternative name (main.go:97-101). -/
def addSAN (lib : Lib) (host : String) (template : Certificate) : Certificate :=
  match lib.parseIP host with
  | some ip => { template with IPAddresses := template.IPAddresses ++ [ip] }
  | none => { template with DNSNames := template.DNSNames ++ [host] }

/-- The template `generateCert` hands to `x509.CreateCertificate`
(main.go:73-101) for the serial number drawn. -/
def certTemplate (lib : Lib) (host : String) (serialNumber : Nat) : Certificate :=
  let notBefore := lib.now
  let notAfter := notBefore.Add certLifetime
  addSAN lib host (templateLiteral serialNumber notBefore notAfter)

/-- The function `generateCert` from `log.Println` on (main.go:66-127): a new
key and certificate are made and written. -/
def generateNew (lib : Lib) (host : String) (w : World) : Res (String × String) :=
  let dir := certDir host
  let certPath := certPathOf host
  let keyPath := keyPathOf host
  let w := logPrintln "Generating new certificates..." w
  let w := w.emit (.generateKey 2048)
  match lib.generateKey 2048 with
  | .error err => logFatalf ("failed to generate private key: " ++ err) w
  | .ok priv =>
  let w := w.emit .now
  let serialNumberLimit := 1 <<< 128
  let w := w.emit (.randInt serialNumberLimit)
  match lib.randInt serialNumberLimit with
  | .error err => logFatalf ("failed to generate serial number: " ++ err) w
  | .ok serialNumber =>
  let template := certTemplate lib host serialNumber
  let w := w.emit (.createCertificate template template priv.PublicKey priv)
  match lib.createCertificate template template priv.PublicKey priv with
  | .error err => logFatalf ("Failed to create certificate: " ++ err) w
  | .ok derBytes =>
  match mkdirAll lib dir 0o700 w with
  | (some err, w) => logFatalf ("Failed to write certificates: " ++ err) w
  | (none, w) =>
  match osCreate lib certPath w with
  | (some err, w) => logFatalf ("failed to open cert.pem for writing: " ++ err) w
  | (none, w) =>
  let w := (pemEncode lib certPath "CERTIFICATE" derBytes w).2
  let w := closeFile certPath w
  match osOpenFile lib keyPath 0o600 w with
  | (some err, w) => logFatalf ("failed to open key.pem for writing: " ++ err) w
  | (none, w) =>
  let w := (pemEncode lib keyPath "RSA PRIVATE KEY" (lib.marshalPKCS1PrivateKey priv) w).2
  let w := closeFile keyPath w
  .ok (certPath, keyPath) w

/-- The function `generateCert` (main.go:55-128). -/
def generateCert (lib : Lib) (host : String) (w : World) : Res (String × String) :=
  let certPath := certPathOf host
  let keyPath := keyPathOf host
  match bothExist certPath keyPath w with
  | (true, w) => .ok (certPath, keyPath) w
  | (false, w) => generateNew lib host w

/-- The function `usage` (main.go:28-36); `prog` is `os.Args[0]`. -/
def usage (prog : String) (w : World) : World :=
  let w := w.emit (.stderr ("usage: " ++ prog ++ " [-host=<hostname>] [-listen=<address>] [upstream]\n"))
  let w := w.emit (.stderr ("version: " ++ Version ++ "\n"))
  let w := w.emit (.stderr "examples:\n")
  let w := w.emit (.stderr ("    " ++ prog ++ " 8000                # create proxy to localhost:8000\n"))
  let w := w.emit (.stderr ("    " ++ prog ++ " -host=foo.dev 9000  # generate a cert for foo.dev:9000\n"))
  w.emit (.stderr ("    " ++ prog ++ " -listen=:8888       # listen on port 8888\n"))

/-- The function `usageAndExit` (main.go:38-42); `flag.CommandLine.Usage` is
`usage` since `init`. -/
def usageAndExit (prog : String) (s : String) (w : World) : Outcome :=
  let w := w.emit (.stderr (s ++ "\n"))
  let w := usage prog w
  .exited 1 w

/-- The banner `main` prints (main.go:164-173). -/
def banner : String :=
  " _     _   _\n" ++
  "| |   | | | |\n" ++
  "| |__ | |_| |_ _ __  ___\n" ++
  "| '_ \\| __| __| '_ \\/ __|\n" ++
  "| | | | |_| |_| |_) \\__ \\\n" ++
  "|_| |_|\\__|\\__| .__/|___/\n" ++
  "              | |\n" ++
  "              |_|\n" ++
  "\n"

/-- Go `fmt.Println(s)`. -/
def fmtPrintln (s : String) (w : World) : World :=
  w.emit (.stdout (s ++ "\n"))

/-- The function `main` (main.go:139-185) after `flag.Parse()`: `prog` is
`os.Args[0]`, `host` and `listen` are the values of the two flags, `args` is
`flag.Args()`. -/
def main (lib : Lib) (prog host listen : String) (args : List String) (w : World) : Outcome :=
  if args.length > 1 then usageAndExit prog "too many args" w else
  let args := defaultArgs args
  let w := w.emit (.resolveTCPAddr "tcp" listen)
  match lib.resolveTCPAddr "tcp" listen with
  | .error _ => usageAndExit prog "failed to parse -listen" w
  | .ok listenAddr =>
  match args.head? with
  | none => .exited 2 (w.emit (.stderr "panic: runtime error: index out of range [0] with length 0\n"))
  | some arg0 =>
  let upstream := resolveUpstream arg0
  match generateCert lib host w with
  | .exit code w => .exited code w
  | .ok (cert, key) w =>
  let proxy := reverseProxy upstream
  let w := w.emit (.stdout banner)
  let w := fmtPrintln ("upstream: " ++ upstream) w
  let w := fmtPrintln ("listen:   " ++ listen) w
  let w :=
    if listenAddr.Port = 443 then fmtPrintln ("proxy:    https://" ++ host ++ "/") w
    else fmtPrintln ("proxy:    https://" ++ host ++ ":" ++ toString listenAddr.Port ++ "/") w
  let w := fmtPrintln "" w
  let w := fmtPrintln "==> let's go!" w
  let w := w.emit (.listenAndServeTLS listen cert key proxy)
  match lib.listenAndServeTLS listen cert key with
  | none => .serving w
  | some err => .exited 1 (w.emit (.log (err ++ "\n")))

/-- The world at the end of a step. -/
def Res.world {α : Type} : Res α → World
  | .ok _ w => w
  | .exit _ w => w

/-- The world at the end of a run. -/
def Outcome.world : Outcome → World
  | .exited _ w => w
  | .serving w => w

/-- The certificate templates handed to `x509.CreateCertificate`, in order. -/
def templatesOf (trace : List Event) : List Certificate :=
  trace.filterMap (fun e =>
    match e with
    | .createCertificate template _ _ _ => some template
    | _ => none)

/-- The filesystem `fs2` comes from `fs1` by steps that make or rewrite files
and directories only: every path leads where it led, and what was there is
still there. -/
def FS.Grows (fs1 fs2 : FS) : Prop :=
  (∀ n p, FS.follow fs2 n p = FS.follow fs1 n p) ∧
  (∀ q, (List.lookup q fs1).isSome = true → (List.lookup q fs2).isSome = true)

/-! ## Concrete runs -/

/-- A small RSA key. -/
def sampleKey : PrivateKey :=
  { PublicKey := { N := 3233, E := 17 }, D := 2753, Primes := [61, 53] }

/-- A run in which nothing fails: the library knows `127.0.0.1` as an IP
literal and `127.0.0.1:8443` as a TCP address, and the server keeps serving. -/
def sampleLib : Lib :=
  { generateKey := fun _ => .ok sampleKey
    now := { ns := 1700000000000000000 }
    randInt := fun _ => .ok 42
    parseIP := fun s =>
      if s = "127.0.0.1" then some [0, 0, 0, 0, 0, 0, 0, 0, 0, 0, 255, 255, 127, 0, 0, 1] else none
    createCertificate := fun _ _ _ _ => .ok [48, 130, 1]
    marshalPKCS1PrivateKey := fun _ => [48, 130, 2]
    pemEncode := fun _ bytes => [45, 45] ++ bytes ++ [45, 45]
    mkdirAllFault := fun _ => none
    openFault := fun _ => none
    writeFault := fun _ => none
    resolveTCPAddr := fun _ address =>
      if address = "127.0.0.1:8443" then .ok { IP := [127, 0, 0, 1], Port := 8443, Zone := "" }
      else .error ("address " ++ address ++ ": missing port in address")
    listenAndServeTLS := fun _ _ _ => none }

/-- The run of `sampleLib` in which every write to a file fails at once. -/
def diskFullLib : Lib :=
  { sampleLib with writeFault := fun _ => some 0 }

/-- A machine with nothing under `/tmp/https-certs` and the usual umask. -/
def emptyWorld : World :=
  { fs := [], umask := 0o022, trace := [] }

/-- A machine on which both files for `localhost` are there already. -/
def provisionedWorld : World :=
  { fs := [("/tmp/https-certs/localhost/cert.pem", .file 0o644 [1]),
           ("/tmp/https-certs/localhost/key.pem", .file 0o600 [2])]
    umask := 0o022
    trace := [] }

/-- A machine on which `key.pem` for `localhost` is there, readable by all,
and `cert.pem` is not. -/
def looseKeyWorld : World :=
  { fs := [("/tmp/https-certs/localhost/", .dir 0o755),
           ("/tmp/https-certs/localhost/key.pem", .file 0o644 [2])]
    umask := 0o022
    trace := [] }

/-- A machine on which the directory for `localhost` is there, empty, and the
umask lets new files be read by their owner only. -/
def strictUmaskWorld : World :=
  { fs := [("/tmp/https-certs/localhost/", .dir 0o700)]
    umask := 0o277
    trace := [] }

/-- A machine on which `cert.pem` for `localhost` is a symbolic link to
`key.pem`, which is not there. -/
def linkedCertWorld : World :=
  { fs := [("/tmp/https-certs/localhost/", .dir 0o755),
           ("/tmp/https-certs/localhost/cert.pem",
             .symlink "/tmp/https-certs/localhost/key.pem")]
    umask := 0o022
    trace := [] }

/-! ## Map and string lemmas -/

theorem lookup_assign {β : Type} (m : List (String × β)) (k k1 : String) (v : β) :
    List.lookup k1 (assign m k v) = if k1 = k then some v else List.lookup k1 m := by
  unfold assign
  by_cases h : k1 = k
  · subst h
    simp [List.lookup]
  · have hb : (k1 == k) = false := by simpa using h
    simp only [List.lookup, hb, if_neg h]
    induction m with
    | nil => rfl
    | cons kv m ih =>
      obtain ⟨a, b⟩ := kv
      by_cases hak : a = k
      · subst hak
        have : (k1 == a) = false := hb
        simp [List.filter, List.lookup, this, ih]
      · have hne : (a != k) = true := by simpa using hak
        simp only [List.filter, hne, List.lookup]
        cases hka : (k1 == a) <;> simp [ih]

theorem contains_colon_list (l : List Char) :
    (l.tails.any (fun t => [':'].isPrefixOf t)) = true ↔ ':' ∈ l := by
  induction l with
  | nil => simp [List.isPrefixOf]
  | cons a l ih =>
    simp only [List.tails, List.any_cons, Bool.or_eq_true, ih, List.mem_cons]
    constructor
    · rintro (h | h)
      · left
        simpa [List.isPrefixOf] using h
      · right; exact h
    · rintro (h | h)
      · left
        simpa [List.isPrefixOf] using h
      · right; exact h

theorem stringsContains_colon (s : String) :
    stringsContains s ":" = true ↔ ':' ∈ s.toList :=
  contains_colon_list s.toList

/-! ## The request rewrite -/

/-- C1. For every upstream address `u` and request `r`, the Director built by
`reverseProxy u` yields a request with URL scheme `http`, URL host `u` and the
header `X-Forwarded-Proto` set to the single value `https`, whatever `r`
carried there; the method, the body, the path, the query string and every
header under another key are those of `r`, and so is every other field of the
request and of its URL, the `Host` and `Transfer-Encoding` headers that Go
keeps in fields of their own among them. -/
theorem director_rewrites (u : String) (r : Request) :
    ((reverseProxy u).Director r).URL.Scheme = "http" ∧
    ((reverseProxy u).Director r).URL.Host = u ∧
    ((reverseProxy u).Director r).Header.lookup "X-Forwarded-Proto" = some ["https"] ∧
    ((reverseProxy u).Director r).Method = r.Method ∧
    ((reverseProxy u).Director r).Body = r.Body ∧
    ((reverseProxy u).Director r).URL.Path = r.URL.Path ∧
    ((reverseProxy u).Director r).URL.RawPath = r.URL.RawPath ∧
    ((reverseProxy u).Director r).URL.RawQuery = r.URL.RawQuery ∧
    (∀ k : String, k ≠ "X-Forwarded-Proto" →
      ((reverseProxy u).Director r).Header.lookup k = r.Header.lookup k) ∧
    ((reverseProxy u).Director r).Host = r.Host ∧
    ((reverseProxy u).Director r).TransferEncoding = r.TransferEncoding ∧
    ((reverseProxy u).Director r).ContentLength = r.ContentLength ∧
    ((reverseProxy u).Director r).Proto = r.Proto ∧
    ((reverseProxy u).Director r).RemoteAddr = r.RemoteAddr ∧
    ((reverseProxy u).Director r).RequestURI = r.RequestURI ∧
    ((reverseProxy u).Director r).URL.Opaque = r.URL.Opaque ∧
    ((reverseProxy u).Director r).URL.User = r.URL.User ∧
    ((reverseProxy u).Director r).URL.ForceQuery = r.URL.ForceQuery ∧
    ((reverseProxy u).Director r).URL.Fragment = r.URL.Fragment := by
  have hc : canonicalMIMEHeaderKey "X-Forwarded-Proto" = "X-Forwarded-Proto" := by decide
  have hset : ∀ k : String, ((reverseProxy u).Director r).Header.lookup k =
      if k = "X-Forwarded-Proto" then some ["https"] else r.Header.lookup k := by
    intro k
    show List.lookup k (assign r.Header (canonicalMIMEHeaderKey "X-Forwarded-Proto") ["https"]) = _
    rw [hc, lookup_assign]
    rfl
  refine ⟨rfl, rfl, ?_, rfl, rfl, rfl, rfl, rfl, ?_, rfl, rfl, rfl, rfl, rfl, rfl, rfl, rfl,
    rfl, rfl⟩
  · rw [hset]; simp
  · intro k hk
    rw [hset, if_neg hk]

/-! ## The upstream address -/

theorem main_serves (lib : Lib) (prog host listen : String) (args : List String) (w w1 : World)
    (addr : TCPAddr) (arg0 cert key : String)
    (hlen : ¬ args.length > 1)
    (hl : lib.resolveTCPAddr "tcp" listen = .ok addr)
    (ha : (defaultArgs args).head? = some arg0)
    (hg : generateCert lib host (w.emit (.resolveTCPAddr "tcp" listen)) = .ok (cert, key) w1) :
    Event.stdout ("upstream: " ++ resolveUpstream arg0 ++ "\n") ∈
        (main lib prog host listen args w).world.trace ∧
    Event.listenAndServeTLS listen cert key (reverseProxy (resolveUpstream arg0)) ∈
        (main lib prog host listen args w).world.trace := by
  unfold main
  simp only [if_neg hlen, hl, ha, hg]
  constructor <;>
    (split <;> split <;> simp [Outcome.world, World.emit, fmtPrintln])

/-- C2. For every positional argument `s`: without a colon in `s` the upstream
address is `"127.0.0.1:"` followed by `s`; with a colon in `s` it is `s`
itself; and a run of `main` on the one argument `s` that gets to the listener
serves the proxy for that address. -/
theorem upstream_of_argument (s : String) :
    (':' ∉ s.toList → resolveUpstream s = "127.0.0.1:" ++ s) ∧
    (':' ∈ s.toList → resolveUpstream s = s) ∧
    (∀ (lib : Lib) (prog host listen cert key : String) (w w1 : World) (addr : TCPAddr),
      lib.resolveTCPAddr "tcp" listen = .ok addr →
      generateCert lib host (w.emit (.resolveTCPAddr "tcp" listen)) = .ok (cert, key) w1 →
      Event.listenAndServeTLS listen cert key (reverseProxy (resolveUpstream s)) ∈
        (main lib prog host listen [s] w).world.trace) := by
  refine ⟨?_, ?_, ?_⟩
  · intro h
    have hc : stringsContains s ":" = false := by
      rw [← Bool.not_eq_true, stringsContains_colon]; exact h
    simp [resolveUpstream, hc]
  · intro h
    have hc : stringsContains s ":" = true := (stringsContains_colon s).2 h
    simp [resolveUpstream, hc]
  · intro lib prog host listen cert key w w1 addr hl hg
    exact (main_serves lib prog host listen [s] w w1 addr s cert key (by simp) hl
      (by simp [defaultArgs]) hg).2

/-- C2 at the two arguments of the specification, `9000` and `example:9000`. -/
theorem upstream_of_argument_examples :
    resolveUpstream "9000" = "127.0.0.1:9000" ∧
    resolveUpstream "example:9000" = "example:9000" :=
  ⟨(upstream_of_argument "9000").1 (by decide),
   (upstream_of_argument "example:9000").2.1 (by decide)⟩

/-- C3. Run with no positional argument, `main` takes `DefaultUpstream` as the
argument and resolves the upstream address `127.0.0.1:8000`: once the listen
address is resolved and the certificate is provisioned, that address is
printed and the proxy for it is served. -/
theorem default_upstream (lib : Lib) (prog host listen cert key : String) (w w1 : World)
    (addr : TCPAddr)
    (hl : lib.resolveTCPAddr "tcp" listen = .ok addr)
    (hg : generateCert lib host (w.emit (.resolveTCPAddr "tcp" listen)) = .ok (cert, key) w1) :
    defaultArgs [] = ["8000"] ∧
    resolveUpstream "8000" = "127.0.0.1:8000" ∧
    Event.stdout "upstream: 127.0.0.1:8000\n" ∈ (main lib prog host listen [] w).world.trace ∧
    Event.listenAndServeTLS listen cert key (reverseProxy "127.0.0.1:8000") ∈
      (main lib prog host listen [] w).world.trace := by
  have hu : resolveUpstream "8000" = "127.0.0.1:8000" := by decide
  have hm := main_serves lib prog host listen [] w w1 addr "8000" cert key (by simp) hl
    (by decide) hg
  rw [hu] at hm
  exact ⟨by decide, hu, hm.1, hm.2⟩

/-- C3 on a machine where the certificate for `localhost` is there already. -/
theorem default_upstream_witness :
    Event.stdout "upstream: 127.0.0.1:8000\n" ∈
      (main sampleLib "https" "localhost" "127.0.0.1:8443" [] provisionedWorld).world.trace ∧
    Event.listenAndServeTLS "127.0.0.1:8443" "/tmp/https-certs/localhost/cert.pem"
        "/tmp/https-certs/localhost/key.pem" (reverseProxy "127.0.0.1:8000") ∈
      (main sampleLib "https" "localhost" "127.0.0.1:8443" [] provisionedWorld).world.trace :=
  (default_upstream sampleLib "https" "localhost" "127.0.0.1:8443"
    "/tmp/https-certs/localhost/cert.pem" "/tmp/https-certs/localhost/key.pem"
    provisionedWorld
    { provisionedWorld with
      trace := [.resolveTCPAddr "tcp" "127.0.0.1:8443",
                .stat "/tmp/https-certs/localhost/cert.pem",
                .stat "/tmp/https-certs/localhost/key.pem"] }
    { IP := [127, 0, 0, 1], Port := 8443, Zone := "" } (by rfl) (by rfl)).2.2


/-! ## Filesystem lemmas -/

theorem emit_fs (w : World) (e : Event) : (w.emit e).fs = w.fs := rfl

theorem follow_assign (fs : FS) (q : String) (v : Node)
    (hold : ∀ t, List.lookup q fs ≠ some (.symlink t)) (hnew : ∀ t, v ≠ .symlink t) :
    ∀ (n : Nat) (path : String), FS.follow (assign fs q v) n path = FS.follow fs n path := by
  have hq : ∀ n, FS.follow (assign fs q v) n q = some q ∧ FS.follow fs n q = some q := by
    intro n
    constructor
    · cases n <;> (unfold FS.follow; rw [lookup_assign, if_pos rfl]; cases v <;> simp_all)
    · cases n <;>
        (unfold FS.follow
         cases hl : List.lookup q fs with
         | none => rfl
         | some node => cases node <;> simp_all)
  intro n
  induction n with
  | zero =>
    intro path
    by_cases h : path = q
    · subst h; rw [(hq 0).1, (hq 0).2]
    · unfold FS.follow
      rw [lookup_assign, if_neg h]
  | succ n ih =>
    intro path
    by_cases h : path = q
    · subst h; rw [(hq (n + 1)).1, (hq (n + 1)).2]
    · unfold FS.follow
      rw [lookup_assign, if_neg h]
      cases hl : List.lookup path fs with
      | none => rfl
      | some node => cases node <;> simp [ih]

theorem grows_refl (fs : FS) : FS.Grows fs fs :=
  ⟨fun _ _ => rfl, fun _ h => h⟩

theorem grows_trans {fs1 fs2 fs3 : FS} (h12 : FS.Grows fs1 fs2) (h23 : FS.Grows fs2 fs3) :
    FS.Grows fs1 fs3 :=
  ⟨fun n p => (h23.1 n p).trans (h12.1 n p), fun q h => h23.2 q (h12.2 q h)⟩

theorem grows_assign (fs : FS) (q : String) (v : Node)
    (hold : ∀ t, List.lookup q fs ≠ some (.symlink t)) (hnew : ∀ t, v ≠ .symlink t) :
    FS.Grows fs (assign fs q v) := by
  refine ⟨follow_assign fs q v hold hnew, ?_⟩
  intro p hp
  rw [lookup_assign]
  by_cases h : p = q
  · simp [h]
  · simpa [h] using hp

theorem present_of_grows {fs1 fs2 : FS} (h : FS.Grows fs1 fs2) (q : String)
    (hp : FS.present fs1 q = true) : FS.present fs2 q = true := by
  unfold FS.present FS.stat at hp ⊢
  rw [h.1]
  cases hf : FS.follow fs1 maxSymlinks q with
  | none => simp [hf] at hp
  | some place =>
    rw [hf] at hp
    exact h.2 place hp

theorem mkdirAll_umask (lib : Lib) (path : String) (perm : Nat) (w : World) :
    (mkdirAll lib path perm w).2.umask = w.umask := by
  unfold mkdirAll
  dsimp only
  split
  · rfl
  · split
    · rfl
    · rfl
    · split <;> rfl

theorem mkdirAll_fs (lib : Lib) (path : String) (perm : Nat) (w : World) :
    (mkdirAll lib path perm w).2.fs = w.fs ∨
    (List.lookup path w.fs = none ∧
      (mkdirAll lib path perm w).2.fs = assign w.fs path (.dir (andNot perm w.umask))) := by
  unfold mkdirAll
  dsimp only
  split
  · exact Or.inl rfl
  · split
    · exact Or.inl rfl
    · exact Or.inl rfl
    · split
      · exact Or.inl rfl
      · rename_i hl
        exact Or.inr ⟨hl, rfl⟩

theorem mkdirAll_grows (lib : Lib) (path : String) (perm : Nat) (w : World) :
    FS.Grows w.fs (mkdirAll lib path perm w).2.fs := by
  rcases mkdirAll_fs lib path perm w with h | ⟨hl, h⟩
  · rw [h]; exact grows_refl _
  · rw [h]
    exact grows_assign _ _ _ (by simp [hl]) (by simp)

theorem mkdirAll_lookup (lib : Lib) (path q : String) (perm : Nat) (w : World)
    (hq : List.lookup q w.fs = none) :
    List.lookup q (mkdirAll lib path perm w).2.fs = none ∨
    ∃ m, List.lookup q (mkdirAll lib path perm w).2.fs = some (.dir m) := by
  rcases mkdirAll_fs lib path perm w with h | ⟨_, h⟩
  · rw [h]; exact Or.inl hq
  · rw [h, lookup_assign]
    by_cases hp : q = path
    · exact Or.inr ⟨_, by rw [if_pos hp]⟩
    · exact Or.inl (by rw [if_neg hp]; exact hq)

theorem openTrunc_umask (lib : Lib) (path : String) (perm : Nat) (w : World) :
    (openTrunc lib path perm w).2.umask = w.umask := by
  unfold openTrunc
  split
  · rfl
  · split
    · rfl
    · split <;> rfl

theorem openTrunc_ok (lib : Lib) (path : String) (perm : Nat) (w : World)
    (h : (openTrunc lib path perm w).1 = none) :
    ∃ place, FS.follow w.fs maxSymlinks path = some place ∧
      ((∃ old d, List.lookup place w.fs = some (.file old d) ∧
          (openTrunc lib path perm w).2.fs = assign w.fs place (.file old [])) ∨
       (List.lookup place w.fs = none ∧
          (openTrunc lib path perm w).2.fs =
            assign w.fs place (.file (andNot perm w.umask) []))) := by
  unfold openTrunc at h ⊢
  split at h
  · simp at h
  · split at h
    · simp at h
    · rename_i place hf
      split at h
      · simp at h
      · simp at h
      · rename_i old d hl
        exact ⟨place, hf, Or.inl ⟨old, d, hl, rfl⟩⟩
      · rename_i hl
        exact ⟨place, hf, Or.inr ⟨hl, rfl⟩⟩

theorem openTrunc_grows (lib : Lib) (path : String) (perm : Nat) (w : World)
    (h : (openTrunc lib path perm w).1 = none) :
    FS.Grows w.fs (openTrunc lib path perm w).2.fs := by
  obtain ⟨place, _, ⟨old, d, hl, hfs⟩ | ⟨hl, hfs⟩⟩ := openTrunc_ok lib path perm w h
  · rw [hfs]
    exact grows_assign _ _ _ (by simp [hl]) (by simp)
  · rw [hfs]
    exact grows_assign _ _ _ (by simp [hl]) (by simp)

theorem openTrunc_present (lib : Lib) (path : String) (perm : Nat) (w : World)
    (h : (openTrunc lib path perm w).1 = none) :
    FS.present (openTrunc lib path perm w).2.fs path = true := by
  have hg := openTrunc_grows lib path perm w h
  obtain ⟨place, hf, ⟨old, d, _, hfs⟩ | ⟨_, hfs⟩⟩ := openTrunc_ok lib path perm w h
  · unfold FS.present FS.stat
    rw [hg.1, hf]
    simp only
    rw [hfs, lookup_assign, if_pos rfl]
    rfl
  · unfold FS.present FS.stat
    rw [hg.1, hf]
    simp only
    rw [hfs, lookup_assign, if_pos rfl]
    rfl

theorem writeFile_fs (lib : Lib) (path : String) (data : List Nat) (w : World) :
    (writeFile lib path data w).2.fs = w.fs ∨
    ∃ place perm old arrived, FS.follow w.fs maxSymlinks path = some place ∧
      List.lookup place w.fs = some (.file perm old) ∧
      (writeFile lib path data w).2.fs = assign w.fs place (.file perm arrived) := by
  unfold writeFile
  dsimp only
  simp only [emit_fs]
  split
  · rename_i place hf
    split
    · rename_i perm old hl
      exact Or.inr ⟨place, perm, old, _, hf, hl, rfl⟩
    · exact Or.inl rfl
  · exact Or.inl rfl

theorem writeFile_grows (lib : Lib) (path : String) (data : List Nat) (w : World) :
    FS.Grows w.fs (writeFile lib path data w).2.fs := by
  rcases writeFile_fs lib path data w with h | ⟨place, perm, old, arrived, _, hl, h⟩
  · rw [h]; exact grows_refl _
  · rw [h]
    exact grows_assign _ _ _ (by simp [hl]) (by simp)

theorem writeFile_lookup (lib : Lib) (path q : String) (data : List Nat) (w : World)
    (hq : FS.follow w.fs maxSymlinks path ≠ some q) :
    List.lookup q (writeFile lib path data w).2.fs = List.lookup q w.fs := by
  rcases writeFile_fs lib path data w with h | ⟨place, perm, old, arrived, hf, _, h⟩
  · rw [h]
  · rw [h, lookup_assign, if_neg]
    intro hqp
    exact hq (by rw [hf, hqp])

theorem writeFile_self (lib : Lib) (path place : String) (data : List Nat) (w : World)
    (perm : Nat) (old : List Nat)
    (hf : FS.follow w.fs maxSymlinks path = some place)
    (h : List.lookup place w.fs = some (.file perm old)) :
    ∃ arrived, List.lookup place (writeFile lib path data w).2.fs =
      some (.file perm arrived) := by
  unfold writeFile
  dsimp only
  simp only [emit_fs, hf, h]
  exact ⟨_, by rw [lookup_assign, if_pos rfl]⟩

theorem generateNew_ok (lib : Lib) (host : String) (w w1 : World) (p : String × String)
    (h : generateNew lib host w = .ok p w1) :
    p = (certPathOf host, keyPathOf host) ∧ w1.umask = w.umask ∧
    FS.present w1.fs (certPathOf host) = true ∧ FS.present w1.fs (keyPathOf host) = true ∧
    (FS.present w.fs (keyPathOf host) = false →
      FS.follow w.fs maxSymlinks (certPathOf host) ≠
        FS.follow w.fs maxSymlinks (keyPathOf host) →
      ∃ data, FS.stat w1.fs (keyPathOf host) = some (.file (andNot 0o600 w.umask) data)) := by
  unfold generateNew at h
  dsimp only at h
  split at h
  · cases h
  split at h
  · cases h
  split at h
  · cases h
  split at h
  · cases h
  split at h
  · cases h
  split at h
  · cases h
  rename_i _ priv hpriv _ serial hserial _ der hder _ wM hM _ wC hC _ wK hK
  cases h
  have hM2 := congrArg Prod.snd hM
  have hC1 := congrArg Prod.fst hC
  have hC2 := congrArg Prod.snd hC
  have hK1 := congrArg Prod.fst hK
  have hK2 := congrArg Prod.snd hK
  simp only [osCreate, osOpenFile] at hM2 hC1 hC2 hK1 hK2
  -- the worlds between the steps
  have uM : wM.umask = w.umask := by rw [← hM2, mkdirAll_umask]; rfl
  have uC : wC.umask = w.umask := by rw [← hC2, openTrunc_umask]; exact uM
  have gM : FS.Grows w.fs wM.fs := by rw [← hM2]; exact mkdirAll_grows _ _ _ _
  have gC : FS.Grows wM.fs wC.fs := by rw [← hC2]; exact openTrunc_grows _ _ _ _ hC1
  have gW : FS.Grows wC.fs
      (closeFile (certPathOf host)
        (pemEncode lib (certPathOf host) "CERTIFICATE" der wC).2).fs :=
    writeFile_grows _ _ _ _
  have gK : FS.Grows
      (closeFile (certPathOf host)
        (pemEncode lib (certPathOf host) "CERTIFICATE" der wC).2).fs wK.fs := by
    rw [← hK2]; exact openTrunc_grows _ _ _ _ hK1
  have gE : FS.Grows wK.fs
      (closeFile (keyPathOf host)
        (pemEncode lib (keyPathOf host) "RSA PRIVATE KEY"
          (lib.marshalPKCS1PrivateKey priv) wK).2).fs :=
    writeFile_grows _ _ _ _
  have presC : FS.present wC.fs (certPathOf host) = true := by
    rw [← hC2]; exact openTrunc_present _ _ _ _ hC1
  have presK : FS.present wK.fs (keyPathOf host) = true := by
    rw [← hK2]; exact openTrunc_present _ _ _ _ hK1
  refine ⟨rfl, ?_, ?_, ?_, ?_⟩
  · show wK.umask = w.umask
    rw [← hK2, openTrunc_umask]; exact uC
  · exact present_of_grows (grows_trans (grows_trans gW gK) gE) _ presC
  · exact present_of_grows gE _ presK
  · intro habs hlink
    obtain ⟨cT, hfC, _⟩ := openTrunc_ok _ _ _ _ hC1
    obtain ⟨kT, hfK, hcase⟩ := openTrunc_ok _ _ _ _ hK1
    simp only [emit_fs] at hfC hfK hcase
    rw [hK2] at hcase
    -- where the two paths lead, from the start on
    have fC0 : FS.follow w.fs maxSymlinks (certPathOf host) = some cT := by
      rw [← gM.1]; exact hfC
    have fK0 : FS.follow w.fs maxSymlinks (keyPathOf host) = some kT := by
      rw [← gM.1, ← gC.1, ← gW.1]; exact hfK
    have hne : cT ≠ kT := by
      intro heq
      apply hlink
      rw [fC0, fK0, heq]
    have a0 : List.lookup kT w.fs = none := by
      unfold FS.present FS.stat at habs
      rw [fK0] at habs
      simpa using habs
    have aM : List.lookup kT wM.fs = none ∨ ∃ m, List.lookup kT wM.fs = some (.dir m) := by
      rw [← hM2]; exact mkdirAll_lookup _ _ _ _ _ a0
    have eC : List.lookup kT wC.fs = List.lookup kT wM.fs := by
      obtain ⟨cT2, hfC2, hc⟩ := openTrunc_ok _ _ _ _ hC1
      simp only [emit_fs] at hfC2 hc
      have : cT2 = cT := by rw [hfC] at hfC2; exact (Option.some.inj hfC2).symm
      subst this
      rw [hC2] at hc
      rcases hc with ⟨old, d, _, hfs⟩ | ⟨_, hfs⟩
      · rw [hfs, lookup_assign, if_neg (Ne.symm hne)]
      · rw [hfs, lookup_assign, if_neg (Ne.symm hne)]
    have eW : List.lookup kT
        (closeFile (certPathOf host)
          (pemEncode lib (certPathOf host) "CERTIFICATE" der wC).2).fs =
        List.lookup kT wC.fs := by
      apply writeFile_lookup
      rw [gC.1, hfC]
      intro hh
      exact hne (Option.some.inj hh)
    have aW : List.lookup kT
        (closeFile (certPathOf host)
          (pemEncode lib (certPathOf host) "CERTIFICATE" der wC).2).fs = none ∨
        ∃ m, List.lookup kT
          (closeFile (certPathOf host)
            (pemEncode lib (certPathOf host) "CERTIFICATE" der wC).2).fs = some (.dir m) := by
      rw [eW, eC]; exact aM
    have fK : List.lookup kT wK.fs = some (.file (andNot 0o600 w.umask) []) := by
      rcases hcase with ⟨old, d, hl, _⟩ | ⟨_, hfs⟩
      · rcases aW with hn | ⟨m, hd⟩
        · rw [hn] at hl; cases hl
        · rw [hd] at hl; cases hl
      · rw [hfs, lookup_assign, if_pos rfl]
        have u2 : (closeFile (certPathOf host)
            (pemEncode lib (certPathOf host) "CERTIFICATE" der wC).2).umask = w.umask := uC
        simp only [World.emit, u2]
    have fKK : FS.follow wK.fs maxSymlinks (keyPathOf host) = some kT := by
      rw [gK.1]; exact hfK
    obtain ⟨arrived, ha⟩ := writeFile_self lib (keyPathOf host) kT
      (lib.pemEncode "RSA PRIVATE KEY" (lib.marshalPKCS1PrivateKey priv)) wK _ _ fKK fK
    refine ⟨arrived, ?_⟩
    unfold FS.stat
    have fE : FS.follow (closeFile (keyPathOf host)
        (pemEncode lib (keyPathOf host) "RSA PRIVATE KEY"
          (lib.marshalPKCS1PrivateKey priv) wK).2).fs maxSymlinks (keyPathOf host) = some kT := by
      rw [gE.1]; exact fKK
    rw [fE]
    exact ha

theorem bothExist_eq (c k : String) (w : World) :
    bothExist c k w =
      if FS.present w.fs c = true then (FS.present w.fs k, (w.emit (.stat c)).emit (.stat k))
      else (false, w.emit (.stat c)) := by
  unfold bothExist pathExists
  cases h : FS.present w.fs c <;> simp [emit_fs]

theorem generateCert_ok (lib : Lib) (host : String) (w w1 : World) (p : String × String)
    (h : generateCert lib host w = .ok p w1) :
    p = (certPathOf host, keyPathOf host) ∧ w1.umask = w.umask ∧
    FS.present w1.fs (certPathOf host) = true ∧ FS.present w1.fs (keyPathOf host) = true ∧
    (FS.present w.fs (keyPathOf host) = false →
      FS.follow w.fs maxSymlinks (certPathOf host) ≠
        FS.follow w.fs maxSymlinks (keyPathOf host) →
      ∃ data, FS.stat w1.fs (keyPathOf host) = some (.file (andNot 0o600 w.umask) data)) := by
  unfold generateCert at h
  dsimp only at h
  rw [bothExist_eq] at h
  by_cases hc : FS.present w.fs (certPathOf host) = true
  · rw [if_pos hc] at h
    by_cases hk : FS.present w.fs (keyPathOf host) = true
    · rw [hk] at h
      dsimp only at h
      cases h
      refine ⟨rfl, rfl, hc, hk, ?_⟩
      intro habs
      rw [hk] at habs
      cases habs
    · have hk2 : FS.present w.fs (keyPathOf host) = false := by simpa using hk
      rw [hk2] at h
      dsimp only at h
      have hn := generateNew_ok lib host _ w1 p h
      exact hn
  · rw [if_neg hc] at h
    dsimp only at h
    have hn := generateNew_ok lib host _ w1 p h
    exact hn

theorem certPathOf_eq (host : String) :
    certPathOf host = "/tmp/https-certs/" ++ host ++ "/cert.pem" := by
  unfold certPathOf certDir
  rw [String.append_assoc _ "/" "cert.pem"]
  rfl

theorem keyPathOf_eq (host : String) :
    keyPathOf host = "/tmp/https-certs/" ++ host ++ "/key.pem" := by
  unfold keyPathOf certDir
  rw [String.append_assoc _ "/" "key.pem"]
  rfl

/-- C4. Whenever a first call `generateCert H` returns, it returns the paths
`/tmp/https-certs/H/cert.pem` and `/tmp/https-certs/H/key.pem`, and a second
call made on the state it left returns the same pair, leaves the filesystem as
it was and does nothing but look at the two paths with `os.Stat`. -/
theorem generateCert_twice (lib lib2 : Lib) (H : String) (w w1 : World) (p : String × String)
    (h : generateCert lib H w = .ok p w1) :
    p = ("/tmp/https-certs/" ++ H ++ "/cert.pem", "/tmp/https-certs/" ++ H ++ "/key.pem") ∧
    ∃ w2, generateCert lib2 H w1 = .ok p w2 ∧ w2.fs = w1.fs ∧
      w2.trace = w1.trace ++ [.stat p.1, .stat p.2] := by
  obtain ⟨hp, _, hc, hk, _⟩ := generateCert_ok lib H w w1 p h
  subst hp
  refine ⟨by rw [certPathOf_eq, keyPathOf_eq], ?_⟩
  refine ⟨(w1.emit (.stat (certPathOf H))).emit (.stat (keyPathOf H)), ?_, rfl, ?_⟩
  · unfold generateCert
    dsimp only
    rw [bothExist_eq, if_pos hc, hk]
  · simp [World.emit]

/-- C4 on a machine with no certificate for `localhost`: the first call makes
one, the second call reuses it. -/
theorem generateCert_twice_witness :
    ∃ w2, generateCert sampleLib "localhost"
        (generateCert sampleLib "localhost" emptyWorld).world =
          .ok ("/tmp/https-certs/localhost/cert.pem", "/tmp/https-certs/localhost/key.pem") w2 ∧
      w2.fs = (generateCert sampleLib "localhost" emptyWorld).world.fs ∧
      w2.trace = (generateCert sampleLib "localhost" emptyWorld).world.trace ++
        [.stat "/tmp/https-certs/localhost/cert.pem", .stat "/tmp/https-certs/localhost/key.pem"] :=
  (generateCert_twice sampleLib sampleLib "localhost" emptyWorld
    (generateCert sampleLib "localhost" emptyWorld).world
    ("/tmp/https-certs/localhost/cert.pem", "/tmp/https-certs/localhost/key.pem") (by rfl)).2


/-! ## Permissions of the key file -/

theorem andNot_600_private (u : Nat) : andNot 0o600 u &&& 0o077 = 0 := by
  apply Nat.eq_of_testBit_eq
  intro i
  simp only [andNot, Nat.testBit_and, Nat.testBit_xor, Nat.zero_testBit]
  by_cases hi : i < 6
  · have h6 : Nat.testBit 0o600 i = false := by
      interval_cases i <;> decide
    simp [h6]
  · have h7 : Nat.testBit 0o077 i = false := by
      apply Nat.testBit_lt_two_pow
      calc 0o077 < 2 ^ 6 := by decide
        _ ≤ 2 ^ i := Nat.pow_le_pow_right (by decide) (Nat.le_of_not_lt hi)
    simp [h7]

theorem andNot_of_disjoint (a u : Nat) (h : u &&& a = 0) : andNot a u = a := by
  unfold andNot
  rw [Nat.land_comm, h]
  simp

/-- C7, as stated, fails on three machines. With `key.pem` there beforehand
with mode 0644 and `cert.pem` missing, `generateCert` takes the generation
path and returns, and the key file still has mode 0644, readable by group and
others. With no file there and a umask of 0277, the new key file has mode
0400. With no file at `key.pem` and `cert.pem` a symbolic link to it,
`os.Create` makes `key.pem` through the link with mode 0644, and the key is
then written to it with that mode. -/
theorem key_file_mode_counterexample :
    ((bothExist (certPathOf "localhost") (keyPathOf "localhost") looseKeyWorld).1 = false ∧
      (∃ w1, generateCert sampleLib "localhost" looseKeyWorld =
          .ok ("/tmp/https-certs/localhost/cert.pem", "/tmp/https-certs/localhost/key.pem") w1 ∧
        List.lookup "/tmp/https-certs/localhost/key.pem" w1.fs =
          some (.file 0o644 [45, 45, 48, 130, 2, 45, 45])) ∧
      (0o644 : Nat) ≠ 0o600 ∧ (0o644 : Nat) &&& 0o077 ≠ 0) ∧
    ((bothExist (certPathOf "localhost") (keyPathOf "localhost") strictUmaskWorld).1 = false ∧
      (∃ w1, generateCert sampleLib "localhost" strictUmaskWorld =
          .ok ("/tmp/https-certs/localhost/cert.pem", "/tmp/https-certs/localhost/key.pem") w1 ∧
        List.lookup "/tmp/https-certs/localhost/key.pem" w1.fs =
          some (.file 0o400 [45, 45, 48, 130, 2, 45, 45])) ∧
      (0o400 : Nat) ≠ 0o600) ∧
    ((bothExist (certPathOf "localhost") (keyPathOf "localhost") linkedCertWorld).1 = false ∧
      FS.present linkedCertWorld.fs (keyPathOf "localhost") = false ∧
      (∃ w1, generateCert sampleLib "localhost" linkedCertWorld =
          .ok ("/tmp/https-certs/localhost/cert.pem", "/tmp/https-certs/localhost/key.pem") w1 ∧
        FS.stat w1.fs "/tmp/https-certs/localhost/key.pem" =
          some (.file 0o644 [45, 45, 48, 130, 2, 45, 45])) ∧
      (0o644 : Nat) ≠ 0o600 ∧ (0o644 : Nat) &&& 0o077 ≠ 0) :=
  ⟨⟨by decide, ⟨_, rfl, by decide⟩, by decide, by decide⟩,
   ⟨by decide, ⟨_, rfl, by decide⟩, by decide⟩,
   ⟨by decide, by decide, ⟨_, rfl, by decide⟩, by decide, by decide⟩⟩

/-- C7, amended. When no file is at `keyPath` before the call (`os.Stat`
fails there), `certPath` does not lead through symbolic links to the place
`keyPath` leads to, and `generateCert H` returns, the key file at `keyPath`
has the mode 0600 less the bits of the umask: no access for group or others,
and exactly 0600 when the umask masks none of the owner's read and write
bits. -/
theorem key_file_owner_only (lib : Lib) (H : String) (w w1 : World) (p : String × String)
    (habs : FS.present w.fs (keyPathOf H) = false)
    (hlink : FS.follow w.fs maxSymlinks (certPathOf H) ≠
      FS.follow w.fs maxSymlinks (keyPathOf H))
    (h : generateCert lib H w = .ok p w1) :
    p.2 = keyPathOf H ∧
    ∃ data, FS.stat w1.fs (keyPathOf H) = some (.file (andNot 0o600 w.umask) data) ∧
      andNot 0o600 w.umask &&& 0o077 = 0 ∧
      (w.umask &&& 0o600 = 0 → andNot 0o600 w.umask = 0o600) := by
  obtain ⟨hp, _, _, _, hk⟩ := generateCert_ok lib H w w1 p h
  subst hp
  obtain ⟨data, hd⟩ := hk habs hlink
  exact ⟨rfl, data, hd, andNot_600_private w.umask, andNot_of_disjoint 0o600 w.umask⟩

/-- C7, amended, on a machine with no certificate for `localhost` and the
umask 022: the new key file has mode 0600. -/
theorem key_file_owner_only_witness :
    FS.present emptyWorld.fs (keyPathOf "localhost") = false ∧
    FS.follow emptyWorld.fs maxSymlinks (certPathOf "localhost") ≠
      FS.follow emptyWorld.fs maxSymlinks (keyPathOf "localhost") ∧
    ∃ data, FS.stat (generateCert sampleLib "localhost" emptyWorld).world.fs
        "/tmp/https-certs/localhost/key.pem" = some (.file 0o600 data) := by
  obtain ⟨_, data, hd, _, hexact⟩ := key_file_owner_only sampleLib "localhost" emptyWorld
    (generateCert sampleLib "localhost" emptyWorld).world
    ("/tmp/https-certs/localhost/cert.pem", "/tmp/https-certs/localhost/key.pem")
    (by decide) (by decide) (by rfl)
  have hm : andNot 0o600 emptyWorld.umask = 0o600 := hexact (by decide)
  rw [hm] at hd
  exact ⟨by decide, by decide, data, hd⟩

/-! ## Failures while provisioning -/

theorem openTrunc_fault (lib : Lib) (path : String) (perm : Nat) (w : World) (e : String)
    (h : lib.openFault path = some e) : openTrunc lib path perm w = (some e, w) := by
  unfold openTrunc
  rw [h]

theorem mkdirAll_fault (lib : Lib) (path : String) (perm : Nat) (w : World) (e : String)
    (h : lib.mkdirAllFault path = some e) :
    mkdirAll lib path perm w = (some e, w.emit (.mkdirAll path perm)) := by
  unfold mkdirAll
  dsimp only
  rw [h]

/-- The failures `generateCert` checks are fatal: on the generation path, a
failure of the key generation, of the serial number, of the certificate
construction, of `os.MkdirAll`, of `os.Create` or of `os.OpenFile` ends the
process with status 1. -/
theorem checked_failures_fatal (lib : Lib) (host : String) (w : World)
    (hgen : (bothExist (certPathOf host) (keyPathOf host) w).1 = false)
    (hfail : (∃ e, lib.generateKey 2048 = .error e) ∨
      (∃ e, lib.randInt (2 ^ 128) = .error e) ∨
      (∃ e, ∀ t pub priv, lib.createCertificate t t pub priv = .error e) ∨
      (∃ e, lib.mkdirAllFault (certDir host) = some e) ∨
      (∃ e, lib.openFault (certPathOf host) = some e) ∨
      (∃ e, lib.openFault (keyPathOf host) = some e)) :
    ∃ w1, generateCert lib host w = .exit 1 w1 := by
  have hnew : ∀ w0, ∃ w1, generateNew lib host w0 = .exit 1 w1 := by
    intro w0
    unfold generateNew
    dsimp only
    split
    · exact ⟨_, rfl⟩
    rename_i priv hpriv
    split
    · exact ⟨_, rfl⟩
    rename_i serial hserial
    split
    · exact ⟨_, rfl⟩
    rename_i der hder
    split
    · exact ⟨_, rfl⟩
    rename_i wM hM
    split
    · exact ⟨_, rfl⟩
    rename_i wC hC
    split
    · exact ⟨_, rfl⟩
    rename_i wK hK
    exfalso
    rcases hfail with ⟨e, he⟩ | ⟨e, he⟩ | ⟨e, he⟩ | ⟨e, he⟩ | ⟨e, he⟩ | ⟨e, he⟩
    · rw [he] at hpriv; cases hpriv
    · have he2 : lib.randInt (1 <<< 128) = .error e := he
      rw [he2] at hserial; cases hserial
    · rw [he] at hder; cases hder
    · rw [mkdirAll_fault _ _ _ _ e he] at hM; cases hM
    · rw [osCreate, openTrunc_fault _ _ _ _ e he] at hC; cases hC
    · rw [osOpenFile, openTrunc_fault _ _ _ _ e he] at hK; cases hK
  unfold generateCert
  dsimp only
  rw [bothExist_eq] at hgen ⊢
  by_cases hc : FS.present w.fs (certPathOf host) = true
  · rw [if_pos hc] at hgen ⊢
    simp only at hgen
    rw [hgen]
    exact hnew _
  · rw [if_neg hc]
    exact hnew _

/-- C6 on a full disk: both calls of `pem.Encode` return an error, and
`generateCert` still returns the two paths, leaving both files empty. -/
theorem write_failure_not_fatal :
    (∀ w, (pemEncode diskFullLib "/tmp/https-certs/localhost/cert.pem" "CERTIFICATE"
      [48, 130, 1] w).1 = false) ∧
    (∀ w, (pemEncode diskFullLib "/tmp/https-certs/localhost/key.pem" "RSA PRIVATE KEY"
      [48, 130, 2] w).1 = false) ∧
    (bothExist (certPathOf "localhost") (keyPathOf "localhost") emptyWorld).1 = false ∧
    ∃ w1, generateCert diskFullLib "localhost" emptyWorld =
        .ok ("/tmp/https-certs/localhost/cert.pem", "/tmp/https-certs/localhost/key.pem") w1 ∧
      List.lookup "/tmp/https-certs/localhost/cert.pem" w1.fs = some (.file 0o644 []) ∧
      List.lookup "/tmp/https-certs/localhost/key.pem" w1.fs = some (.file 0o600 []) :=
  ⟨fun _ => rfl, fun _ => rfl, by decide, _, rfl, by decide, by decide⟩

/-! ## The certificate template -/

theorem templatesOf_append (l1 l2 : List Event) :
    templatesOf (l1 ++ l2) = templatesOf l1 ++ templatesOf l2 := by
  simp [templatesOf, List.filterMap_append]

theorem mkdirAll_trace (lib : Lib) (path : String) (perm : Nat) (w : World) :
    (mkdirAll lib path perm w).2.trace = w.trace ++ [.mkdirAll path perm] := by
  unfold mkdirAll
  dsimp only
  split
  · rfl
  · split
    · rfl
    · rfl
    · split <;> rfl

theorem openTrunc_trace (lib : Lib) (path : String) (perm : Nat) (w : World) :
    (openTrunc lib path perm w).2.trace = w.trace := by
  unfold openTrunc
  split
  · rfl
  · split
    · rfl
    · split <;> rfl

theorem writeFile_trace (lib : Lib) (path : String) (data : List Nat) (w : World) :
    (writeFile lib path data w).2.trace = w.trace ++ [.write path data] := rfl

theorem generateNew_templates (lib : Lib) (host : String) (w : World) (priv : PrivateKey)
    (serial : Nat)
    (hk : lib.generateKey 2048 = .ok priv)
    (hs : lib.randInt (2 ^ 128) = .ok serial) :
    templatesOf (generateNew lib host w).world.trace =
      templatesOf w.trace ++ [certTemplate lib host serial] := by
  have hs2 : lib.randInt (1 <<< 128) = .ok serial := hs
  unfold generateNew
  simp only [hk, hs2]
  split
  · simp [logFatalf, Res.world, World.emit, logPrintln, templatesOf_append, templatesOf]
  split
  · rename_i wM hM
    have hM2 := congrArg Prod.snd hM
    simp only at hM2
    simp only [logFatalf, Res.world, World.emit, ← hM2, mkdirAll_trace]
    simp [logPrintln, World.emit, templatesOf_append, templatesOf]
  rename_i wM hM
  have hM2 := congrArg Prod.snd hM
  simp only at hM2
  have tM : templatesOf wM.trace = templatesOf w.trace ++ [certTemplate lib host serial] := by
    rw [← hM2, mkdirAll_trace]
    simp [logPrintln, World.emit, templatesOf_append, templatesOf]
  split
  · rename_i wC hC
    have hC2 := congrArg Prod.snd hC
    simp only [osCreate] at hC2
    simp only [logFatalf, Res.world, World.emit, ← hC2, openTrunc_trace]
    rw [templatesOf_append, templatesOf_append, tM]
    simp [templatesOf]
  rename_i wC hC
  have hC2 := congrArg Prod.snd hC
  simp only [osCreate] at hC2
  have tC : templatesOf wC.trace = templatesOf w.trace ++ [certTemplate lib host serial] := by
    rw [← hC2, openTrunc_trace]
    simp only [World.emit]
    rw [templatesOf_append, tM]
    simp [templatesOf]
  split
  · rename_i wK hK
    have hK2 := congrArg Prod.snd hK
    simp only [osOpenFile] at hK2
    simp only [logFatalf, Res.world, World.emit, ← hK2, openTrunc_trace, closeFile, pemEncode,
      writeFile_trace]
    simp only [templatesOf_append, tC]
    simp [templatesOf]
  rename_i wK hK
  have hK2 := congrArg Prod.snd hK
  simp only [osOpenFile] at hK2
  simp only [Res.world, World.emit, closeFile, pemEncode, writeFile_trace, ← hK2, openTrunc_trace]
  simp only [templatesOf_append, tC]
  simp [templatesOf]

theorem generateCert_templates (lib : Lib) (host : String) (w : World) (priv : PrivateKey)
    (serial : Nat)
    (hgen : (bothExist (certPathOf host) (keyPathOf host) w).1 = false)
    (hk : lib.generateKey 2048 = .ok priv)
    (hs : lib.randInt (2 ^ 128) = .ok serial) :
    templatesOf (generateCert lib host w).world.trace =
      templatesOf w.trace ++ [certTemplate lib host serial] := by
  unfold generateCert
  dsimp only
  rw [bothExist_eq] at hgen ⊢
  by_cases hc : FS.present w.fs (certPathOf host) = true
  · rw [if_pos hc] at hgen ⊢
    simp only at hgen
    rw [hgen]
    dsimp only
    rw [generateNew_templates lib host _ priv serial hk hs]
    simp [World.emit, templatesOf_append, templatesOf]
  · rw [if_neg hc]
    dsimp only
    rw [generateNew_templates lib host _ priv serial hk hs]
    simp [World.emit, templatesOf_append, templatesOf]

theorem certLifetime_eq : certLifetime = 31536000000000000 := by
  norm_num [certLifetime, Hour, Minute, Second, Millisecond, Microsecond, Nanosecond, wrapInt64]

/-- C5. Whenever `generateCert H` takes the generation path and gets a key and
a serial number, it builds exactly one certificate template; if `H` parses as
an IP literal, the IP addresses of the template are exactly that one IP and
its DNS names are empty; if `H` does not parse as an IP literal, the DNS names
are exactly `H` and the IP addresses are empty. -/
theorem template_alternative_names (lib : Lib) (H : String) (w : World) (priv : PrivateKey)
    (serial : Nat)
    (hgen : (bothExist (certPathOf H) (keyPathOf H) w).1 = false)
    (hk : lib.generateKey 2048 = .ok priv)
    (hs : lib.randInt (2 ^ 128) = .ok serial) :
    ∃ t, templatesOf (generateCert lib H w).world.trace = templatesOf w.trace ++ [t] ∧
      (∀ ip, lib.parseIP H = some ip → t.IPAddresses = [ip] ∧ t.DNSNames = []) ∧
      (lib.parseIP H = none → t.DNSNames = [H] ∧ t.IPAddresses = []) := by
  refine ⟨certTemplate lib H serial, generateCert_templates lib H w priv serial hgen hk hs, ?_, ?_⟩
  · intro ip hip
    simp [certTemplate, addSAN, hip, templateLiteral]
  · intro hip
    simp [certTemplate, addSAN, hip, templateLiteral]

/-- C5 at the two hosts of the specification, `127.0.0.1` and `dev.local`, on
a machine with no certificate. -/
theorem template_alternative_names_witness :
    (∃ t, templatesOf (generateCert sampleLib "127.0.0.1" emptyWorld).world.trace = [t] ∧
      t.IPAddresses = [[0, 0, 0, 0, 0, 0, 0, 0, 0, 0, 255, 255, 127, 0, 0, 1]] ∧
      t.DNSNames = []) ∧
    (∃ t, templatesOf (generateCert sampleLib "dev.local" emptyWorld).world.trace = [t] ∧
      t.DNSNames = ["dev.local"] ∧ t.IPAddresses = []) := by
  constructor
  · obtain ⟨t, ht, hip, _⟩ := template_alternative_names sampleLib "127.0.0.1" emptyWorld
      sampleKey 42 (by decide) (by rfl) (by rfl)
    exact ⟨t, ht, hip _ (by rfl)⟩
  · obtain ⟨t, ht, _, hdns⟩ := template_alternative_names sampleLib "dev.local" emptyWorld
      sampleKey 42 (by decide) (by rfl) (by rfl)
    exact ⟨t, ht, hdns (by rfl)⟩

/-- C8. Whenever `generateCert H` takes the generation path and gets a key and
a serial number, the one template it builds has `NotBefore` equal to the
generation time `time.Now()` and `NotAfter` equal to that time plus 365 days
of 24 hours; the duration `365 * 24 * time.Hour` is 31536000000000000
nanoseconds, within the range of an `int64`. -/
theorem template_validity (lib : Lib) (H : String) (w : World) (priv : PrivateKey)
    (serial : Nat)
    (hgen : (bothExist (certPathOf H) (keyPathOf H) w).1 = false)
    (hk : lib.generateKey 2048 = .ok priv)
    (hs : lib.randInt (2 ^ 128) = .ok serial) :
    ∃ t, templatesOf (generateCert lib H w).world.trace = templatesOf w.trace ++ [t] ∧
      t.NotBefore = lib.now ∧
      t.NotAfter.ns = lib.now.ns + 365 * (24 * (3600 * 1000000000)) ∧
      certLifetime = 365 * (24 * (3600 * 1000000000)) ∧
      -(2 : Int) ^ 63 ≤ 365 * (24 * (3600 * 1000000000)) ∧
      (365 * (24 * (3600 * 1000000000)) : Int) < 2 ^ 63 := by
  refine ⟨certTemplate lib H serial, generateCert_templates lib H w priv serial hgen hk hs,
    ?_, ?_, ?_, by norm_num, by norm_num⟩
  · cases hp : lib.parseIP H <;> simp [certTemplate, addSAN, hp, templateLiteral]
  · have hl : (certTemplate lib H serial).NotAfter = lib.now.Add certLifetime := by
      cases hp : lib.parseIP H <;> simp [certTemplate, addSAN, hp, templateLiteral]
    rw [hl, Time.Add, certLifetime_eq]
    norm_num
  · rw [certLifetime_eq]
    norm_num

/-- C8 on a machine with no certificate for `localhost`, at the clock reading
of the sample run. -/
theorem template_validity_witness :
    ∃ t, templatesOf (generateCert sampleLib "localhost" emptyWorld).world.trace = [t] ∧
      t.NotBefore = { ns := 1700000000000000000 } ∧
      t.NotAfter.ns = 1700000000000000000 + 365 * (24 * (3600 * 1000000000)) := by
  obtain ⟨t, ht, hb, ha, _⟩ := template_validity sampleLib "localhost" emptyWorld
    sampleKey 42 (by decide) (by rfl) (by rfl)
  exact ⟨t, ht, hb, ha⟩

/-! ## Usage errors -/

theorem usageAndExit_eq (prog s : String) (w : World) :
    ∃ new, usageAndExit prog s w = .exited 1 { w with trace := w.trace ++ new } ∧
      ∀ e ∈ new, ∃ text, e = Event.stderr text := by
  refine ⟨[.stderr (s ++ "\n"),
    .stderr ("usage: " ++ prog ++ " [-host=<hostname>] [-listen=<address>] [upstream]\n"),
    .stderr ("version: " ++ Version ++ "\n"),
    .stderr "examples:\n",
    .stderr ("    " ++ prog ++ " 8000                # create proxy to localhost:8000\n"),
    .stderr ("    " ++ prog ++ " -host=foo.dev 9000  # generate a cert for foo.dev:9000\n"),
    .stderr ("    " ++ prog ++ " -listen=:8888       # listen on port 8888\n")], ?_, ?_⟩
  · simp [usageAndExit, usage, World.emit]
  · intro e he
    simp only [List.mem_cons, List.mem_singleton, List.not_mem_nil, or_false] at he
    rcases he with h | h | h | h | h | h | h <;> exact ⟨_, h⟩

/-- C9. For every `-listen` value that `net.ResolveTCPAddr` rejects, `main`
exits with status 1; the filesystem is as before, and all the run did was try
to resolve the address and write to standard error: no call of `os.Stat`, with
which `generateCert` begins, no file is made or written, no listener is
started. -/
theorem bad_listen_exits (lib : Lib) (prog host listen : String) (args : List String)
    (w : World) (err : String)
    (h : lib.resolveTCPAddr "tcp" listen = .error err) :
    ∃ code w1 new, main lib prog host listen args w = .exited code w1 ∧ code ≠ 0 ∧
      w1.fs = w.fs ∧ w1.trace = w.trace ++ new ∧
      ∀ e ∈ new, (∃ text, e = Event.stderr text) ∨ e = Event.resolveTCPAddr "tcp" listen := by
  unfold main
  by_cases hlen : args.length > 1
  · rw [if_pos hlen]
    obtain ⟨new, hu, hn⟩ := usageAndExit_eq prog "too many args" w
    exact ⟨1, _, new, hu, by decide, rfl, rfl, fun e he => Or.inl (hn e he)⟩
  · rw [if_neg hlen]
    simp only [h]
    obtain ⟨new, hu, hn⟩ := usageAndExit_eq prog "failed to parse -listen"
      (w.emit (.resolveTCPAddr "tcp" listen))
    refine ⟨1, _, Event.resolveTCPAddr "tcp" listen :: new, hu, by decide, rfl, ?_, ?_⟩
    · simp [World.emit]
    · intro e he
      rcases List.mem_cons.1 he with h1 | h1
      · exact Or.inr h1
      · exact Or.inl (hn e h1)

/-- C9 at the `-listen` value of the specification, `not-an-address`. -/
theorem bad_listen_exits_witness :
    ∃ code w1 new, main sampleLib "https" "localhost" "not-an-address" [] emptyWorld =
        .exited code w1 ∧ code ≠ 0 ∧
      w1.fs = emptyWorld.fs ∧ w1.trace = emptyWorld.trace ++ new ∧
      ∀ e ∈ new, (∃ text, e = Event.stderr text) ∨
        e = Event.resolveTCPAddr "tcp" "not-an-address" :=
  bad_listen_exits sampleLib "https" "localhost" "not-an-address" [] emptyWorld
    "address not-an-address: missing port in address" (by rfl)

/-- C10. For every argument list with more than one positional argument,
`main` exits with status 1 before anything else happens: the filesystem is as
before and all the run did was write to standard error, so the listen address
is not resolved, no certificate is made or written, no listener is started. -/
theorem too_many_args_exits (lib : Lib) (prog host listen : String) (args : List String)
    (w : World)
    (h : args.length > 1) :
    ∃ code w1 new, main lib prog host listen args w = .exited code w1 ∧ code ≠ 0 ∧
      w1.fs = w.fs ∧ w1.trace = w.trace ++ new ∧
      ∀ e ∈ new, ∃ text, e = Event.stderr text := by
  unfold main
  rw [if_pos h]
  obtain ⟨new, hu, hn⟩ := usageAndExit_eq prog "too many args" w
  exact ⟨1, _, new, hu, by decide, rfl, rfl, hn⟩

/-- C10 at two positional arguments. -/
theorem too_many_args_exits_witness :
    ∃ code w1 new, main sampleLib "https" "localhost" "127.0.0.1:8443" ["8000", "9000"]
        emptyWorld = .exited code w1 ∧ code ≠ 0 ∧
      w1.fs = emptyWorld.fs ∧ w1.trace = emptyWorld.trace ++ new ∧
      ∀ e ∈ new, ∃ text, e = Event.stderr text :=
  too_many_args_exits sampleLib "https" "localhost" "127.0.0.1:8443" ["8000", "9000"]
    emptyWorld (by decide)

end Https
